import Mathlib

/-!
Verification development for the firecrest-workflows data model
(`firecrest_wflow/_orm.py`).

The repository stores, per user, a remote-connection profile (`Client`),
reusable script templates (`Code`), individual job invocations (`CalcJob`),
a one-to-one execution status per invocation (`Processing`), and output
artifacts (`DataNode`).  Pure attribute logic (derived remote paths, the
cached connection handle, default labels, equality/hashing) is embedded
directly from the source; behaviour the source only declares (unique
constraints, cascade deletes, step-transition checking, template rendering)
is modelled from the specification, with each such definition marked
`Modelled from the spec:` in its doc comment.
-/

/-- Filesystem convention of the remote machine, the `fsystem` column of
`Client` (`Literal["posix", "windows"]`). -/
inductive FSystem
  | posix
  | windows
deriving DecidableEq

/-- Embedding of Python `pathlib.PurePosixPath` / `PureWindowsPath` as far as
the repository uses them: a flavour tag, an optional drive (windows only),
an optional root, and the list of path components. -/
structure PurePath where
  fsystem : FSystem
  drive : String
  root : String
  parts : List String
deriving DecidableEq

/-- Split a character list at separator characters; the groups between
separators are returned in order (empty groups included, filtered later). -/
def splitChars (isSep : Char → Bool) : List Char → List (List Char)
  | [] => [[]]
  | c :: rest =>
    let r := splitChars isSep rest
    if isSep c then [] :: r
    else
      match r with
      | g :: gs => (c :: g) :: gs
      | [] => [[c]]

/-- Keep only real path components: drop empty strings and single dots,
as `pathlib` does when parsing. -/
def cleanParts (groups : List (List Char)) : List String :=
  (groups.map (fun g => String.mk g)).filter (fun p => !(p == "") && !(p == "."))

/-- Root of a POSIX path from its characters: a leading `/` is the root,
with the POSIX special case that exactly two leading slashes form the
root `//`. -/
def posixRoot : List Char → String
  | '/' :: '/' :: '/' :: _ => "/"
  | '/' :: '/' :: _ => "//"
  | '/' :: _ => "/"
  | _ => ""

/-- Parse a string as `PurePosixPath` does: root from the leading slashes,
components split on `/`. -/
def parsePosixPath (s : String) : PurePath :=
  { fsystem := FSystem.posix
    drive := ""
    root := posixRoot s.toList
    parts := cleanParts (splitChars (fun c => c == '/') s.toList) }

/-- Windows path separators: both backslash and forward slash. -/
def isWinSep (c : Char) : Bool := c == '\\' || c == '/'

/-- Parse a string as `PureWindowsPath` does for drive-letter paths: an
optional leading `X:` drive, an optional root separator after it, and
components split on either separator. -/
def parseWindowsPath (s : String) : PurePath :=
  let cs := s.toList
  let driveRest : List Char × List Char :=
    match cs with
    | c :: ':' :: rest => if c.isAlpha then ([c, ':'], rest) else ([], cs)
    | _ => ([], cs)
  let root :=
    match driveRest.2 with
    | c :: _ => if isWinSep c then "\\" else ""
    | [] => ""
  { fsystem := FSystem.windows
    drive := String.mk driveRest.1
    root := root
    parts := cleanParts (splitChars isWinSep driveRest.2) }

/-- Separator used when printing the path, by flavour. -/
def PurePath.sep (p : PurePath) : String :=
  match p.fsystem with
  | FSystem.posix => "/"
  | FSystem.windows => "\\"

/-- Render the path as `str(PurePath)` does: drive, then root, then the
components joined by the flavour's separator; the empty relative path
prints as a single dot. -/
def PurePath.render (p : PurePath) : String :=
  if p.drive == "" && p.root == "" && p.parts.isEmpty then "."
  else p.drive ++ p.root ++ String.intercalate p.sep p.parts

/-- The `/` operator on pure paths for one segment: a segment with a drive
replaces the whole path, a rooted segment replaces root and parts, and a
relative segment appends its components. -/
def PurePath.join (p : PurePath) (seg : String) : PurePath :=
  let q :=
    match p.fsystem with
    | FSystem.posix => parsePosixPath seg
    | FSystem.windows => parseWindowsPath seg
  if !(q.drive == "") then q
  else if !(q.root == "") then
    { fsystem := p.fsystem, drive := p.drive, root := q.root, parts := q.parts }
  else
    { p with parts := p.parts ++ q.parts }

/-- String-valued field maps stand in for the JSON-valued columns; no claim
inspects the values themselves. -/
abbrev JsonDict := List (String × String)

/-- Upload manifests map a POSIX-relative remote path to an object-store
key, or to `none` for a directory to create. -/
abbrev UploadManifest := List (String × Option String)

/-- The `client` table: one user's FirecREST connection data. -/
structure Client where
  pk : Int
  label : String
  client_url : String
  client_id : String
  token_uri : String
  client_secret : String
  machine_name : String
  work_dir : String
  fsystem : FSystem := FSystem.posix
  small_file_size_mb : Nat := 5
deriving DecidableEq

/-- The `code` table: a reusable batch-script template owned by a client. -/
structure Code where
  pk : Int
  label : String
  client_pk : Int
  script : String
  upload_paths : UploadManifest := []
deriving DecidableEq

/-- The `calcjob` table: one concrete job invocation owned by a code. -/
structure CalcJob where
  pk : Int
  label : String := ""
  uuid : String
  code_pk : Int
  parameters : JsonDict := []
  upload : UploadManifest := []
  download_globs : List String := []
deriving DecidableEq

/-- Lifecycle steps of the `calcjob_status.step` enum column, in the order
the spec gives. -/
inductive Step
  | created
  | uploading
  | submitting
  | running
  | retrieving
  | finalised
deriving DecidableEq

/-- The `calcjob_status` table: the single processing record of a calcjob. -/
structure Processing where
  pk : Int
  calcjob_pk : Int
  step : Step := Step.created
  job_id : Option String := none
  exception : Option String := none
deriving DecidableEq

/-- The `data` table: an output artifact created by a calcjob. -/
structure DataNode where
  pk : Int
  attributes : JsonDict := []
  creator_pk : Int
deriving DecidableEq

/-- The `Client.work_path` property: parse `work_dir` with the flavour
selected by the `fsystem` column. -/
def Client.work_path (c : Client) : PurePath :=
  match c.fsystem with
  | FSystem.posix => parsePosixPath c.work_dir
  | FSystem.windows => parseWindowsPath c.work_dir

/-- The `CalcJob.remote_path` property, with the `code.client` relationship
resolved to the owning client passed explicitly:
`self.code.client.work_path / "workflows" / self.uuid`. -/
def CalcJob.remote_path (cj : CalcJob) (client : Client) : PurePath :=
  (client.work_path.join "workflows").join cj.uuid

/-- C2: the remote execution folder is the profile's working directory
joined with the fixed `workflows` segment and the invocation's uuid, under
the profile's filesystem convention; for a posix profile with working
directory `/home/u` and uuid `abc-123` it renders as
`/home/u/workflows/abc-123`, and for a windows profile with working
directory `C:\Users\u` it renders as `C:\Users\u\workflows\abc-123`. -/
theorem remote_path_derivation (c : Client) (cj : CalcJob) :
    cj.remote_path c = (c.work_path.join "workflows").join cj.uuid ∧
    (c.fsystem = FSystem.posix → c.work_dir = "/home/u" → cj.uuid = "abc-123" →
      (cj.remote_path c).render = "/home/u/workflows/abc-123") ∧
    (c.fsystem = FSystem.windows → c.work_dir = "C:\\Users\\u" → cj.uuid = "abc-123" →
      (cj.remote_path c).render = "C:\\Users\\u\\workflows\\abc-123") := by
  refine ⟨rfl, ?_, ?_⟩
  · intro hf hw hu
    simp only [CalcJob.remote_path, Client.work_path, hf, hw, hu]
    rfl
  · intro hf hw hu
    simp only [CalcJob.remote_path, Client.work_path, hf, hw, hu]
    rfl

/-- Concrete posix client used in witnesses. -/
def clientPosixEx : Client :=
  { pk := 1, label := "alpha", client_url := "https://fc.example", client_id := "id"
    token_uri := "https://auth.example/token", client_secret := "secret"
    machine_name := "daint", work_dir := "/home/u", fsystem := FSystem.posix }

/-- Concrete windows client used in witnesses. -/
def clientWindowsEx : Client :=
  { pk := 2, label := "beta", client_url := "https://fc.example", client_id := "id"
    token_uri := "https://auth.example/token", client_secret := "secret"
    machine_name := "winbox", work_dir := "C:\\Users\\u", fsystem := FSystem.windows }

/-- Concrete calcjob used in witnesses. -/
def calcjobEx : CalcJob :=
  { pk := 7, uuid := "abc-123", code_pk := 3 }

/-- Witness for C2 at the two concrete profiles of the claim. -/
theorem remote_path_derivation_witness :
    (calcjobEx.remote_path clientPosixEx).render = "/home/u/workflows/abc-123" ∧
    (calcjobEx.remote_path clientWindowsEx).render = "C:\\Users\\u\\workflows\\abc-123" :=
  ⟨(remote_path_derivation clientPosixEx calcjobEx).2.1 rfl rfl rfl,
   (remote_path_derivation clientWindowsEx calcjobEx).2.2 rfl rfl rfl⟩

/-- Successor of a step in the declared order
`created → uploading → submitting → running → retrieving → finalised`;
`finalised` is terminal. -/
def Step.next : Step → Option Step
  | Step.created => some Step.uploading
  | Step.uploading => some Step.submitting
  | Step.submitting => some Step.running
  | Step.running => some Step.retrieving
  | Step.retrieving => some Step.finalised
  | Step.finalised => none

/-- Error raised on an attempted step change that skips or reverses the
declared order, carrying the current and the attempted step. -/
inductive TransitionError
  | invalidTransition (cur target : Step)
deriving DecidableEq

/-- Modelled from the spec: the step-transition checker of the lifecycle
state machine (the orchestrator/persistence code enforcing it is not part
of the ORM module under `src/`).  Recording a failure forces the step to
`finalised` and stores the description; otherwise the target must be the
immediate successor of the current step, and any other attempt is rejected
with `InvalidTransition`, returning the record unchanged. -/
def Processing.transition (p : Processing) (target : Step)
    (failure : Option String) : Processing × Option TransitionError :=
  match failure with
  | some msg => ({ p with step := Step.finalised, exception := some msg }, none)
  | none =>
    if p.step.next = some target then ({ p with step := target }, none)
    else (p, some (TransitionError.invalidTransition p.step target))

/-- C1: a step change is accepted exactly when it follows the declared
order or is a failure jump to `finalised`; an accepted ordinary change sets
the target step, an accepted failure jump sets `finalised`, and a rejected
change returns an `InvalidTransition` error with the record, hence the
step, unchanged.  The last conjuncts pin down the order `Step.next`
encodes. -/
theorem step_transitions_follow_order_or_failure
    (p : Processing) (target : Step) (failure : Option String) :
    ((p.transition target failure).2 = none ↔
      (Step.next p.step = some target ∨ failure ≠ none)) ∧
    ((p.transition target failure).2 ≠ none →
      (p.transition target failure).1 = p ∧
      (p.transition target failure).2 =
        some (TransitionError.invalidTransition p.step target)) ∧
    (failure = none → Step.next p.step = some target →
      (p.transition target failure).1.step = target) ∧
    (failure ≠ none → (p.transition target failure).1.step = Step.finalised ∧
      (p.transition target failure).1.exception = failure) ∧
    Step.next Step.created = some Step.uploading ∧
    Step.next Step.uploading = some Step.submitting ∧
    Step.next Step.submitting = some Step.running ∧
    Step.next Step.running = some Step.retrieving ∧
    Step.next Step.retrieving = some Step.finalised ∧
    Step.next Step.finalised = none := by
  cases failure with
  | some msg =>
    refine ⟨?_, ?_, ?_, ?_, rfl, rfl, rfl, rfl, rfl, rfl⟩ <;>
      simp [Processing.transition]
  | none =>
    by_cases h : Step.next p.step = some target
    · refine ⟨?_, ?_, ?_, ?_, rfl, rfl, rfl, rfl, rfl, rfl⟩ <;>
        simp [Processing.transition, h]
    · refine ⟨?_, ?_, ?_, ?_, rfl, rfl, rfl, rfl, rfl, rfl⟩ <;>
        simp [Processing.transition, h]

/-- Concrete processing record in state `created`, used in witnesses. -/
def processingEx : Processing :=
  { pk := 11, calcjob_pk := 7 }

/-- Witness for C1: from `created`, jumping straight to `running` with no
failure recorded is rejected with `InvalidTransition` and the record is
unchanged, while the in-order move to `uploading` is accepted. -/
theorem step_transitions_follow_order_or_failure_witness :
    (processingEx.transition Step.running none).1 = processingEx ∧
    (processingEx.transition Step.running none).2 =
      some (TransitionError.invalidTransition Step.created Step.running) ∧
    (processingEx.transition Step.uploading none).1.step = Step.uploading := by
  have h1 :=
    (step_transitions_follow_order_or_failure processingEx Step.running none).2.1
      (by decide)
  have h2 :=
    (step_transitions_follow_order_or_failure processingEx Step.uploading none).2.2.1
      rfl (by decide)
  exact ⟨h1.1, h1.2, h2⟩

/-- The external FirecREST gateway handle, holding the constructor arguments
`Client.client` passes (`firecrest.Firecrest(firecrest_url=...,
authorization=ClientCredentialsAuth(client_id, client_secret, token_uri))`). -/
structure Firecrest where
  firecrest_url : String
  auth_client_id : String
  auth_client_secret : String
  auth_token_uri : String
deriving DecidableEq

/-- Modelled from the spec: handle construction can fail with a
`ConnectionError` (bad credentials, unreachable endpoint); the gateway
client library itself is an external collaborator. -/
inductive ConnError
  | connectionError (msg : String)
deriving DecidableEq

/-- The `Client.client` cached property: `cached` models whether the
`_client` attribute is present, and `construct` is the outcome of this
access's constructor call.  A present attribute is returned without
constructing; otherwise a successful construction is stored and returned,
and a failed one is raised with nothing stored. -/
def clientAccess (construct : Except ConnError Firecrest)
    (cached : Option Firecrest) : Except ConnError Firecrest × Option Firecrest :=
  match cached with
  | some h => (Except.ok h, some h)
  | none =>
    match construct with
    | Except.ok h => (Except.ok h, some h)
    | Except.error e => (Except.error e, none)

/-- C5: a cached handle is returned as-is on every later access (whatever
this access's construction would do), the first successful construction is
cached, a failed construction is raised and caches nothing, and an access
after a failure behaves exactly like an access on a fresh instance, so the
old failure is never replayed. -/
theorem client_handle_cached_and_failure_not_cached
    (construct retry : Except ConnError Firecrest) (h : Firecrest) (e : ConnError) :
    clientAccess construct (some h) = (Except.ok h, some h) ∧
    clientAccess (Except.ok h) none = (Except.ok h, some h) ∧
    clientAccess (Except.error e) none = (Except.error e, none) ∧
    clientAccess retry (clientAccess (Except.error e) none).2 =
      clientAccess retry none :=
  ⟨rfl, rfl, rfl, rfl⟩

/-- Concrete gateway handle used in witnesses. -/
def firecrestEx : Firecrest :=
  { firecrest_url := "https://fc.example", auth_client_id := "id"
    auth_client_secret := "secret", auth_token_uri := "https://auth.example/token" }

/-- Concrete connection failure used in witnesses. -/
def connErrEx : ConnError := ConnError.connectionError "endpoint unreachable"

/-- Witness for C5 at a concrete handle and a concrete failure. -/
theorem client_handle_cached_and_failure_not_cached_witness :
    clientAccess (Except.error connErrEx) (some firecrestEx) =
      (Except.ok firecrestEx, some firecrestEx) ∧
    clientAccess (Except.error connErrEx) none = (Except.error connErrEx, none) := by
  have h := client_handle_cached_and_failure_not_cached
    (Except.error connErrEx) (Except.error connErrEx) firecrestEx connErrEx
  exact ⟨h.1, h.2.2.1⟩

/-- The fixed `NAMES` tuple of whimsical default labels, in source order
(50 entries, including the repeated `optimized_operations`). -/
def NAMES : List String :=
  [ "digital_dynamo", "futuristic_fusion", "optical_odyssey", "radiant_rocket"
  , "super_sonic", "crystal_cruiser", "creative_cyber", "efficient_explorer"
  , "virtual_venture", "nifty_navigator", "glorious_galaxy", "optimized_operations"
  , "astonishing_adventure", "elegant_evolution", "smooth_symphony", "powerful_prodigy"
  , "virtual_visionary", "sleek_sentinel", "energetic_explorer", "optimistic_odyssey"
  , "fantastic_frontier", "digital_dominion", "efficient_evolution", "virtual_voyager"
  , "nimble_navigator", "glorious_gateway", "optimized_operations", "astonishing_array"
  , "elegant_enterprise", "sophisticated_symphony", "perfect_prodigy", "virtual_victory"
  , "speedy_sentinel", "energetic_enterprise", "optimistic_optimizer", "futuristic_fortune"
  , "dynamic_dynamo", "flawless_fusion", "optimal_odyssey", "radiant_realm"
  , "superior_symphony", "crystal_crusader", "creative_computing", "efficient_exec"
  , "virtual_vision", "nifty_network", "glorious_grid", "optimized_optimizer"
  , "astonishing_accelerator", "elegant_explorer" ]

/-- An element read below the length of a list is a member of it. -/
theorem getD_mem_of_lt {α : Type} (l : List α) (n : Nat) (d : α)
    (h : n < l.length) : l.getD n d ∈ l := by
  induction l generalizing n with
  | nil => simp at h
  | cons a t ih =>
    cases n with
    | zero => simp
    | succ m =>
      rw [List.getD_cons_succ]
      exact List.mem_cons_of_mem _ (ih m (by simpa using h))

/-- The default for the `label` column of `client`:
`lambda: random.choice(NAMES)`, the random draw modelled as an arbitrary
index into the pool. -/
def Client.defaultLabel (randomChoice : Nat) : String :=
  NAMES.getD (randomChoice % NAMES.length) ""

/-- The default for the `label` column of `code`: the same
`lambda: random.choice(NAMES)` over the same pool. -/
def Code.defaultLabel (randomChoice : Nat) : String :=
  NAMES.getD (randomChoice % NAMES.length) ""

/-- C8: whatever the random draw, a client created without an explicit
label gets one from the fixed 50-entry `NAMES` pool. -/
theorem default_client_label_from_name_pool (i : Nat) :
    Client.defaultLabel i ∈ NAMES ∧ NAMES.length = 50 :=
  ⟨getD_mem_of_lt NAMES (i % NAMES.length) ""
      (Nat.mod_lt i (by decide)), by decide⟩

/-- Witness for C8 at a concrete random draw. -/
theorem default_client_label_from_name_pool_witness :
    Client.defaultLabel 3 ∈ NAMES :=
  (default_client_label_from_name_pool 3).1

/-- C10: a code created without an explicit label draws its default from
exactly the same fixed 50-entry pool as client labels do. -/
theorem default_code_label_same_pool (i : Nat) :
    Code.defaultLabel i = Client.defaultLabel i ∧
    Code.defaultLabel i ∈ NAMES ∧ NAMES.length = 50 :=
  ⟨rfl,
   getD_mem_of_lt NAMES (i % NAMES.length) "" (Nat.mod_lt i (by decide)),
   by decide⟩

/-- Witness for C10 at a concrete random draw. -/
theorem default_code_label_same_pool_witness :
    Code.defaultLabel 7 = Client.defaultLabel 7 :=
  (default_code_label_same_pool 7).1

/-- An entity of any of the five mapped tables, for stating the shared
`Base.__eq__` / `Base.__hash__` behaviour. -/
inductive Entity
  | client (c : Client)
  | code (c : Code)
  | calcjob (c : CalcJob)
  | processing (p : Processing)
  | datanode (d : DataNode)
deriving DecidableEq

/-- The table an entity belongs to (its Python class). -/
inductive EntityKind
  | client
  | code
  | calcjob
  | processing
  | datanode
deriving DecidableEq

/-- Class of an entity. -/
def Entity.kind : Entity → EntityKind
  | Entity.client _ => EntityKind.client
  | Entity.code _ => EntityKind.code
  | Entity.calcjob _ => EntityKind.calcjob
  | Entity.processing _ => EntityKind.processing
  | Entity.datanode _ => EntityKind.datanode

/-- Primary key of an entity (the shared `pk` column of `Base`). -/
def Entity.pk : Entity → Int
  | Entity.client c => c.pk
  | Entity.code c => c.pk
  | Entity.calcjob c => c.pk
  | Entity.processing p => p.pk
  | Entity.datanode d => d.pk

/-- The shared `Base.__eq__`: equal exactly when the other object is an
instance of the same class and the primary keys agree. -/
def Entity.eqPy : Entity → Entity → Bool
  | Entity.client a, Entity.client b => a.pk == b.pk
  | Entity.code a, Entity.code b => a.pk == b.pk
  | Entity.calcjob a, Entity.calcjob b => a.pk == b.pk
  | Entity.processing a, Entity.processing b => a.pk == b.pk
  | Entity.datanode a, Entity.datanode b => a.pk == b.pk
  | _, _ => false

/-- CPython's hash of a (small-magnitude) int: reduce modulo `2^61 - 1`
preserving sign, with `-1` mapped to `-2`. -/
def pyIntHash (n : Int) : Int :=
  let p : Int := 2 ^ 61 - 1
  let r := if 0 ≤ n then n % p else -((-n) % p)
  if r = -1 then -2 else r

/-- The shared `Base.__hash__`: `hash(self.pk)`. -/
def Entity.hashPy (e : Entity) : Int := pyIntHash e.pk

/-- Concrete code record with the same primary key as `clientPosixEx`,
used to separate identifier equality from entity equality. -/
def codePk1Ex : Code :=
  { pk := 1, label := "gamma", client_pk := 1, script := "mpirun app" }

/-- C9 counterexample: a client and a code with the same primary key have
equal identifiers yet compare unequal, because `Base.__eq__` also requires
the same class; so equality does not hold whenever identifiers are equal. -/
theorem entity_eq_not_solely_pk :
    (Entity.client clientPosixEx).pk = (Entity.code codePk1Ex).pk ∧
    Entity.eqPy (Entity.client clientPosixEx) (Entity.code codePk1Ex) = false :=
  ⟨rfl, rfl⟩

/-- C9 (amended): two entities are equal exactly when they are of the same
kind and their identifiers are equal, and an entity's hash is the hash of
its identifier. -/
theorem entity_eq_by_kind_and_pk (a b : Entity) :
    (Entity.eqPy a b = true ↔ (Entity.kind a = Entity.kind b ∧ Entity.pk a = Entity.pk b)) ∧
    Entity.hashPy a = pyIntHash (Entity.pk a) := by
  refine ⟨?_, rfl⟩
  cases a <;> cases b <;>
    simp [Entity.eqPy, Entity.kind, Entity.pk]

/-- Witness for C9 (amended): same-kind entities with equal keys are equal. -/
theorem entity_eq_by_kind_and_pk_witness :
    Entity.eqPy (Entity.code codePk1Ex) (Entity.code codePk1Ex) = true :=
  ((entity_eq_by_kind_and_pk (Entity.code codePk1Ex) (Entity.code codePk1Ex)).1).mpr
    ⟨rfl, rfl⟩

/-- Modelled from the spec: error kinds the persistence layer reports, for
a uniqueness violation on a label and for an entity referencing a
nonexistent owner. -/
inductive OrmError
  | duplicateLabel
  | orphanReference
deriving DecidableEq

/-- Modelled from the spec: the persisted state, one list of rows per
table of the ownership tree. -/
structure Store where
  clients : List Client := []
  codes : List Code := []
  calcjobs : List CalcJob := []
  processings : List Processing := []
  datanodes : List DataNode := []

/-- The store before any entity is created. -/
def emptyStore : Store := {}

/-- Modelled from the spec: a primary key the database has never used for
this table, one larger than every key handed out so far. -/
def freshPk (pks : List Int) : Int := pks.foldl max 0 + 1

/-- Modelled from the spec: creating a profile fails with `DuplicateLabel`
when the label is already taken, leaving the store unchanged; otherwise the
row is stored under a fresh primary key. -/
def Store.createClient (st : Store) (c : Client) : Store × Option OrmError :=
  if st.clients.any (fun c0 => c0.label == c.label) then
    (st, some OrmError.duplicateLabel)
  else
    ({ st with clients :=
        st.clients ++ [{ c with pk := freshPk (st.clients.map Client.pk) }] }, none)

/-- Modelled from the spec: creating a template fails with `DuplicateLabel`
when its owning profile already has a template of that label (the
`UniqueConstraint("client_pk", "label")` of the `code` table), and with
`OrphanReference` when the owner does not exist; either failure leaves the
store unchanged. -/
def Store.createCode (st : Store) (co : Code) : Store × Option OrmError :=
  if st.codes.any (fun c0 => c0.client_pk == co.client_pk && c0.label == co.label) then
    (st, some OrmError.duplicateLabel)
  else if st.clients.any (fun c0 => c0.pk == co.client_pk) then
    ({ st with codes :=
        st.codes ++ [{ co with pk := freshPk (st.codes.map Code.pk) }] }, none)
  else (st, some OrmError.orphanReference)

/-- Modelled from the spec: creating a job invocation stores the row under
a fresh primary key and, in the same operation, its single execution
status in step `created`; it fails with `OrphanReference` when the owning
template does not exist. -/
def Store.createCalcJob (st : Store) (cj : CalcJob) : Store × Option OrmError :=
  if st.codes.any (fun c0 => c0.pk == cj.code_pk) then
    ({ st with
        calcjobs := st.calcjobs ++
          [{ cj with pk := freshPk (st.calcjobs.map CalcJob.pk) }]
        processings := st.processings ++
          [{ pk := freshPk (st.processings.map Processing.pk)
             calcjob_pk := freshPk (st.calcjobs.map CalcJob.pk) }] }, none)
  else (st, some OrmError.orphanReference)

/-- Modelled from the spec: deleting a job invocation cascades to exactly
its execution status and its output artifacts. -/
def Store.deleteCalcJob (st : Store) (pk : Int) : Store × Option OrmError :=
  ({ st with
      calcjobs := st.calcjobs.filter (fun cj => !(cj.pk == pk))
      processings := st.processings.filter (fun pr => !(pr.calcjob_pk == pk))
      datanodes := st.datanodes.filter (fun dn => !(dn.creator_pk == pk)) }, none)

/-- Modelled from the spec: an output artifact is always created with a
reference to an existing producing invocation, else `OrphanReference`. -/
def Store.createDataNode (st : Store) (dn : DataNode) : Store × Option OrmError :=
  if st.calcjobs.any (fun cj => cj.pk == dn.creator_pk) then
    ({ st with datanodes :=
        st.datanodes ++ [{ dn with pk := freshPk (st.datanodes.map DataNode.pk) }] }, none)
  else (st, some OrmError.orphanReference)

/-- The operations the persistence interface offers on the store. -/
inductive Op
  | createClient (c : Client)
  | createCode (co : Code)
  | createCalcJob (cj : CalcJob)
  | deleteCalcJob (pk : Int)
  | createDataNode (dn : DataNode)

/-- Apply one operation, keeping the prior state on failure. -/
def applyOp (st : Store) : Op → Store
  | Op.createClient c => (st.createClient c).1
  | Op.createCode co => (st.createCode co).1
  | Op.createCalcJob cj => (st.createCalcJob cj).1
  | Op.deleteCalcJob pk => (st.deleteCalcJob pk).1
  | Op.createDataNode dn => (st.createDataNode dn).1

/-- Run a sequence of operations from a starting state. -/
def runOps : List Op → Store → Store
  | [], st => st
  | op :: ops, st => runOps ops (applyOp st op)

/-- The execution-status rows attached to the calcjob with the given key. -/
def statusesOf (st : Store) (cjpk : Int) : List Processing :=
  st.processings.filter (fun pr => pr.calcjob_pk == cjpk)

/-- Exactly one execution status per stored calcjob, and every stored
execution status belongs to a stored calcjob. -/
def oneStatusInv (st : Store) : Prop :=
  (∀ cj ∈ st.calcjobs, (statusesOf st cj.pk).length = 1) ∧
  (∀ pr ∈ st.processings, ∃ cj ∈ st.calcjobs, cj.pk = pr.calcjob_pk)

/-- Distinct stored profiles carry distinct labels. -/
def clientLabelsDistinct (st : Store) : Prop :=
  st.clients.Pairwise (fun a b => a.label ≠ b.label)

/-- Distinct stored templates of the same profile carry distinct labels. -/
def codeLabelsDistinct (st : Store) : Prop :=
  st.codes.Pairwise (fun a b => a.client_pk ≠ b.client_pk ∨ a.label ≠ b.label)

/-- Folding `max` never goes below its initial value. -/
theorem foldl_max_ge_init (l : List Int) (a : Int) : a ≤ l.foldl max a := by
  induction l generalizing a with
  | nil => simp
  | cons x t ih => exact le_trans (le_max_left a x) (ih (max a x))

/-- Folding `max` bounds every list element. -/
theorem mem_le_foldl_max (l : List Int) (a : Int) :
    ∀ x ∈ l, x ≤ l.foldl max a := by
  induction l generalizing a with
  | nil => simp
  | cons y t ih =>
    intro x hx
    rcases List.mem_cons.mp hx with h | h
    · subst h
      exact le_trans (le_max_right a x) (foldl_max_ge_init t (max a x))
    · exact ih (max a y) x h

/-- A fresh primary key is strictly larger than every key in use. -/
theorem freshPk_gt (pks : List Int) : ∀ pk ∈ pks, pk < freshPk pks := by
  intro pk h
  have hle := mem_le_foldl_max pks 0 pk h
  unfold freshPk
  omega

/-- Filtering with `g` first does not change a filter with `f` when `f`
implies `g`. -/
theorem filter_filter_of_imp {α : Type} (f g : α → Bool)
    (h : ∀ a, f a = true → g a = true) :
    ∀ l : List α, (l.filter g).filter f = l.filter f := by
  intro l
  induction l with
  | nil => rfl
  | cons a t ih =>
    by_cases hg : g a = true
    · by_cases hf : f a = true <;> simp [List.filter_cons, hg, hf, ih]
    · have hf : f a = false := by
        cases hfa : f a
        · rfl
        · exact absurd (h a hfa) hg
      simp [List.filter_cons, hg, hf, ih]

/-- Filtering with `g` first empties a filter with `f` when `g` excludes
everything `f` keeps. -/
theorem filter_filter_none {α : Type} (f g : α → Bool)
    (h : ∀ a, g a = true → f a = false) :
    ∀ l : List α, (l.filter g).filter f = [] := by
  intro l
  induction l with
  | nil => rfl
  | cons a t ih =>
    by_cases hg : g a = true
    · simp [List.filter_cons, hg, h a hg, ih]
    · simp [List.filter_cons, hg, ih]

/-- Every persistence operation preserves the one-status-per-calcjob
invariant. -/
theorem oneStatusInv_applyOp (st : Store) (op : Op) (h : oneStatusInv st) :
    oneStatusInv (applyOp st op) := by
  obtain ⟨h1, h2⟩ := h
  cases op with
  | createClient c =>
    simp only [applyOp, Store.createClient]
    split
    · exact ⟨h1, h2⟩
    · exact ⟨h1, h2⟩
  | createCode co =>
    simp only [applyOp, Store.createCode]
    split
    · exact ⟨h1, h2⟩
    · split
      · exact ⟨h1, h2⟩
      · exact ⟨h1, h2⟩
  | createDataNode dn =>
    simp only [applyOp, Store.createDataNode]
    split
    · exact ⟨h1, h2⟩
    · exact ⟨h1, h2⟩
  | createCalcJob cj =>
    simp only [applyOp, Store.createCalcJob]
    split
    · constructor
      · intro cj' hcj'
        simp only [statusesOf, List.filter_append]
        rcases List.mem_append.mp hcj' with hold | hnew
        · have hlt : cj'.pk < freshPk (st.calcjobs.map CalcJob.pk) :=
            freshPk_gt _ _ (List.mem_map_of_mem CalcJob.pk hold)
          have hsingle :
              (List.filter (fun pr => pr.calcjob_pk == cj'.pk)
                ([{ pk := freshPk (st.processings.map Processing.pk)
                    calcjob_pk := freshPk (st.calcjobs.map CalcJob.pk) }] :
                  List Processing)) = [] := by
            simp only [List.filter_cons, List.filter_nil]
            have : (freshPk (st.calcjobs.map CalcJob.pk) == cj'.pk) = false := by
              simp only [beq_eq_false_iff_ne, ne_eq]
              omega
            simp [this]
          rw [hsingle, List.append_nil]
          exact h1 cj' hold
        · have hcj'' : cj' = { cj with pk := freshPk (st.calcjobs.map CalcJob.pk) } := by
            simpa using hnew
          subst hcj''
          have hempty :
              (st.processings.filter
                (fun pr => pr.calcjob_pk == freshPk (st.calcjobs.map CalcJob.pk))) = [] := by
            rw [List.filter_eq_nil_iff]
            intro pr hpr
            obtain ⟨cjo, hcjo, hpk⟩ := h2 pr hpr
            have hlt : cjo.pk < freshPk (st.calcjobs.map CalcJob.pk) :=
              freshPk_gt _ _ (List.mem_map_of_mem CalcJob.pk hcjo)
            simp only [beq_iff_eq]
            omega
          rw [hempty, List.nil_append]
          simp [List.filter_cons]
      · intro pr hpr
        rcases List.mem_append.mp hpr with hold | hnew
        · obtain ⟨cjo, hcjo, hpk⟩ := h2 pr hold
          exact ⟨cjo, List.mem_append_left _ hcjo, hpk⟩
        · have hpr' : pr = { pk := freshPk (st.processings.map Processing.pk)
                             calcjob_pk := freshPk (st.calcjobs.map CalcJob.pk) } := by
            simpa using hnew
          subst hpr'
          exact ⟨{ cj with pk := freshPk (st.calcjobs.map CalcJob.pk) },
            List.mem_append_right _ (by simp), by simp⟩
    · exact ⟨h1, h2⟩
  | deleteCalcJob pk =>
    simp only [applyOp, Store.deleteCalcJob]
    constructor
    · intro cj' hcj'
      rw [List.mem_filter] at hcj'
      have hne : cj'.pk ≠ pk := by simpa using hcj'.2
      simp only [statusesOf]
      rw [filter_filter_of_imp _ _ ?_ st.processings]
      · exact h1 cj' hcj'.1
      · intro pr hf
        have : pr.calcjob_pk = cj'.pk := by simpa using hf
        simp [this, hne]
    · intro pr hpr
      rw [List.mem_filter] at hpr
      have hne : pr.calcjob_pk ≠ pk := by simpa using hpr.2
      obtain ⟨cjo, hcjo, hpk⟩ := h2 pr hpr.1
      refine ⟨cjo, List.mem_filter.mpr ⟨hcjo, ?_⟩, hpk⟩
      simp [hpk, hne]

/-- Running any operation sequence preserves the one-status invariant. -/
theorem oneStatusInv_runOps (ops : List Op) (st : Store) (h : oneStatusInv st) :
    oneStatusInv (runOps ops st) := by
  induction ops generalizing st with
  | nil => exact h
  | cons op rest ih => exact ih (applyOp st op) (oneStatusInv_applyOp st op h)

/-- C3: in every store reachable from the empty store, each stored calcjob
owns exactly one execution status (the status is created with the calcjob
and no second one can ever be attached), every status belongs to a stored
calcjob, and deleting a calcjob removes its status with it. -/
theorem one_status_per_calcjob :
    (∀ ops : List Op, oneStatusInv (runOps ops emptyStore)) ∧
    (∀ (st : Store) (pk : Int), statusesOf (st.deleteCalcJob pk).1 pk = []) := by
  constructor
  · intro ops
    refine oneStatusInv_runOps ops emptyStore ⟨?_, ?_⟩ <;>
      intro x hx <;> simp [emptyStore] at hx
  · intro st pk
    exact filter_filter_none (fun pr => pr.calcjob_pk == pk)
      (fun pr => !(pr.calcjob_pk == pk)) (fun a hg => by simpa using hg)
      st.processings

/-- Concrete calcjob creation input used in witnesses (its stored primary
key is assigned by the store). -/
def calcjobInputEx : CalcJob := { pk := 0, uuid := "abc-123", code_pk := 1 }

/-- Concrete operation sequence used in witnesses: create a profile, a
template under it, a calcjob under that, then delete the calcjob. -/
def opsEx : List Op :=
  [ Op.createClient clientPosixEx, Op.createCode codePk1Ex
  , Op.createCalcJob calcjobInputEx, Op.deleteCalcJob 1 ]

/-- Concrete store with two calcjobs, their statuses and artifacts, used
in witnesses about deletion. -/
def stDelEx : Store :=
  { clients := [clientPosixEx]
    codes := [codePk1Ex]
    calcjobs := [ { pk := 7, uuid := "abc-123", code_pk := 1 }
                , { pk := 8, uuid := "def-456", code_pk := 1 } ]
    processings := [ { pk := 1, calcjob_pk := 7 }, { pk := 2, calcjob_pk := 8 } ]
    datanodes := [ { pk := 1, creator_pk := 7 }, { pk := 2, creator_pk := 8 } ] }

/-- Witness for C3 at a concrete operation sequence and a concrete
deletion. -/
theorem one_status_per_calcjob_witness :
    oneStatusInv (runOps opsEx emptyStore) ∧
    statusesOf (stDelEx.deleteCalcJob 7).1 7 = [] :=
  ⟨one_status_per_calcjob.1 opsEx, one_status_per_calcjob.2 stDelEx 7⟩

/-- C6: deleting a calcjob removes exactly the statuses, artifacts and
calcjob row carrying its key — a status or artifact survives if and only
if it was stored and belongs to another invocation — and rows of every
other table are untouched. -/
theorem delete_calcjob_frame (st : Store) (pk : Int) :
    (∀ pr : Processing, pr ∈ (st.deleteCalcJob pk).1.processings ↔
      (pr ∈ st.processings ∧ pr.calcjob_pk ≠ pk)) ∧
    (∀ dn : DataNode, dn ∈ (st.deleteCalcJob pk).1.datanodes ↔
      (dn ∈ st.datanodes ∧ dn.creator_pk ≠ pk)) ∧
    (∀ cj : CalcJob, cj ∈ (st.deleteCalcJob pk).1.calcjobs ↔
      (cj ∈ st.calcjobs ∧ cj.pk ≠ pk)) ∧
    (st.deleteCalcJob pk).1.clients = st.clients ∧
    (st.deleteCalcJob pk).1.codes = st.codes := by
  refine ⟨?_, ?_, ?_, rfl, rfl⟩ <;> intro x <;>
    simp [Store.deleteCalcJob, List.mem_filter]

/-- Witness for C6: after deleting calcjob 7 from the concrete store, the
sibling's status is still stored and the profile table is unchanged. -/
theorem delete_calcjob_frame_witness :
    ({ pk := 2, calcjob_pk := 8 } : Processing) ∈
      (stDelEx.deleteCalcJob 7).1.processings ∧
    (stDelEx.deleteCalcJob 7).1.clients = stDelEx.clients :=
  ⟨((delete_calcjob_frame stDelEx 7).1 _).mpr ⟨by simp [stDelEx], by decide⟩,
   (delete_calcjob_frame stDelEx 7).2.2.2.1⟩

/-- Every persistence operation preserves distinctness of profile labels
and of per-profile template labels. -/
theorem labelsDistinct_applyOp (st : Store) (op : Op)
    (h1 : clientLabelsDistinct st) (h2 : codeLabelsDistinct st) :
    clientLabelsDistinct (applyOp st op) ∧ codeLabelsDistinct (applyOp st op) := by
  cases op with
  | createClient c =>
    simp only [applyOp, Store.createClient]
    split
    case isTrue => exact ⟨h1, h2⟩
    case isFalse hany =>
      refine ⟨?_, h2⟩
      have hf : (st.clients.any fun c0 => c0.label == c.label) = false := by
        simpa using hany
      rw [List.any_eq_false] at hf
      unfold clientLabelsDistinct
      rw [List.pairwise_append]
      refine ⟨h1, List.pairwise_singleton _ _, ?_⟩
      intro a ha b hb
      have hb' : b = { c with pk := freshPk (st.clients.map Client.pk) } := by
        simpa using hb
      subst hb'
      have := hf a ha
      simpa using this
  | createCode co =>
    simp only [applyOp, Store.createCode]
    split
    case isTrue => exact ⟨h1, h2⟩
    case isFalse hany =>
      split
      case isFalse => exact ⟨h1, h2⟩
      case isTrue =>
        refine ⟨h1, ?_⟩
        have hf : (st.codes.any
            fun c0 => c0.client_pk == co.client_pk && c0.label == co.label) = false := by
          simpa using hany
        rw [List.any_eq_false] at hf
        unfold codeLabelsDistinct
        rw [List.pairwise_append]
        refine ⟨h2, List.pairwise_singleton _ _, ?_⟩
        intro a ha b hb
        have hb' : b = { co with pk := freshPk (st.codes.map Code.pk) } := by
          simpa using hb
        subst hb'
        have := hf a ha
        by_cases hpk : a.client_pk = co.client_pk
        · right
          simp [hpk] at this
          simpa using this
        · left
          simpa using hpk
  | createCalcJob cj =>
    simp only [applyOp, Store.createCalcJob]
    split
    · exact ⟨h1, h2⟩
    · exact ⟨h1, h2⟩
  | deleteCalcJob pk => exact ⟨h1, h2⟩
  | createDataNode dn =>
    simp only [applyOp, Store.createDataNode]
    split
    · exact ⟨h1, h2⟩
    · exact ⟨h1, h2⟩

/-- C4: creating a profile whose label is already stored (or a template
whose label is already stored under the same profile) fails with
`DuplicateLabel` and returns the store unchanged, and in every store
reachable from the empty store distinct profiles have distinct labels and
distinct templates of one profile have distinct labels. -/
theorem labels_unique_and_duplicates_rejected :
    (∀ (st : Store) (c : Client), (∃ c0 ∈ st.clients, c0.label = c.label) →
      st.createClient c = (st, some OrmError.duplicateLabel)) ∧
    (∀ (st : Store) (co : Code),
      (∃ c0 ∈ st.codes, c0.client_pk = co.client_pk ∧ c0.label = co.label) →
      st.createCode co = (st, some OrmError.duplicateLabel)) ∧
    (∀ ops : List Op, clientLabelsDistinct (runOps ops emptyStore) ∧
      codeLabelsDistinct (runOps ops emptyStore)) := by
  refine ⟨?_, ?_, ?_⟩
  · rintro st c ⟨c0, hc0, hlab⟩
    have hany : (st.clients.any fun x => x.label == c.label) = true :=
      List.any_eq_true.mpr ⟨c0, hc0, by simp [hlab]⟩
    simp [Store.createClient, hany]
  · rintro st co ⟨c0, hc0, hpk, hlab⟩
    have hany : (st.codes.any
        fun x => x.client_pk == co.client_pk && x.label == co.label) = true :=
      List.any_eq_true.mpr ⟨c0, hc0, by simp [hpk, hlab]⟩
    simp [Store.createCode, hany]
  · have hrun : ∀ (ops : List Op) (st : Store),
        clientLabelsDistinct st → codeLabelsDistinct st →
        clientLabelsDistinct (runOps ops st) ∧ codeLabelsDistinct (runOps ops st) := by
      intro ops
      induction ops with
      | nil => exact fun st ha hb => ⟨ha, hb⟩
      | cons op rest ih =>
        intro st ha hb
        obtain ⟨ha', hb'⟩ := labelsDistinct_applyOp st op ha hb
        exact ih (applyOp st op) ha' hb'
    intro ops
    exact hrun ops emptyStore List.Pairwise.nil List.Pairwise.nil

/-- Concrete client sharing the stored label of `clientPosixEx`, used in
witnesses. -/
def clientDupEx : Client := { clientPosixEx with pk := 99 }

/-- Concrete store already holding `clientPosixEx`, used in witnesses. -/
def stClientsEx : Store := { emptyStore with clients := [clientPosixEx] }

/-- Witness for C4: inserting a second profile with the stored label
`alpha` is rejected with `DuplicateLabel` and the store is unchanged, and
a concrete creation run yields pairwise-distinct labels. -/
theorem labels_unique_and_duplicates_rejected_witness :
    stClientsEx.createClient clientDupEx = (stClientsEx, some OrmError.duplicateLabel) ∧
    clientLabelsDistinct (runOps opsEx emptyStore) :=
  ⟨labels_unique_and_duplicates_rejected.1 stClientsEx clientDupEx
      ⟨clientPosixEx, by simp [stClientsEx, emptyStore], rfl⟩,
   (labels_unique_and_duplicates_rejected.2.2 opsEx).1⟩

/-- Modelled from the spec: one token of a parsed script template — either
literal text or a placeholder referencing a field of one of the named
bindings (the renderer itself is the external jinja2 engine; the source
only documents the placeholders `client`, `code` and `calc`). -/
inductive ScriptToken
  | text (s : String)
  | placeholder (binding : String) (field : String)
deriving DecidableEq

/-- Modelled from the spec: the render failure raised when a referenced
field does not exist on the supplied bindings. -/
inductive RenderError
  | templateRenderError (binding field : String)
deriving DecidableEq

/-- One named binding: a field map standing for the bound object. -/
abbrev BindingObject := List (String × String)

/-- The named bindings supplied to a render. -/
abbrev Bindings := List (String × BindingObject)

/-- The binding set the orchestrator supplies when rendering a script:
exactly the three names the source documents. -/
def standardBindings (clientObj codeObj calcObj : BindingObject) : Bindings :=
  [("client", clientObj), ("code", codeObj), ("calc", calcObj)]

/-- Look a referenced field up: the binding by name, then the field on it. -/
def lookupField (b : Bindings) (binding field : String) : Option String :=
  match b.lookup binding with
  | none => none
  | some obj => obj.lookup field

/-- Modelled from the spec: render a parsed script against bindings,
failing with `TemplateRenderError` at a placeholder whose referenced field
does not exist. -/
def renderScript : List ScriptToken → Bindings → Except RenderError String
  | [], _ => Except.ok ""
  | ScriptToken.text s :: rest, b =>
    match renderScript rest b with
    | Except.ok out => Except.ok (s ++ out)
    | Except.error e => Except.error e
  | ScriptToken.placeholder n f :: rest, b =>
    match lookupField b n f with
    | none => Except.error (RenderError.templateRenderError n f)
    | some v =>
      match renderScript rest b with
      | Except.ok out => Except.ok (v ++ out)
      | Except.error e => Except.error e

/-- Modelled from the spec: the orchestrator renders the script and only
on success advances the execution status; a failed render is reported to
the caller and the status record is left untouched. -/
def renderThenAdvance (p : Processing) (target : Step)
    (tokens : List ScriptToken) (b : Bindings) :
    Processing × Option RenderError :=
  match renderScript tokens b with
  | Except.error e => (p, some e)
  | Except.ok _ => ((p.transition target none).1, none)

/-- A script referencing a missing field renders to some
`TemplateRenderError`. -/
theorem renderScript_error_of_missing (tokens : List ScriptToken)
    (b : Bindings) (n f : String)
    (hmem : ScriptToken.placeholder n f ∈ tokens)
    (hmiss : lookupField b n f = none) :
    ∃ n0 f0, renderScript tokens b =
      Except.error (RenderError.templateRenderError n0 f0) := by
  induction tokens with
  | nil => simp at hmem
  | cons t rest ih =>
    cases t with
    | text s =>
      have hmem' : ScriptToken.placeholder n f ∈ rest := by simpa using hmem
      obtain ⟨n0, f0, herr⟩ := ih hmem'
      exact ⟨n0, f0, by simp [renderScript, herr]⟩
    | placeholder n1 f1 =>
      by_cases hl : lookupField b n1 f1 = none
      · exact ⟨n1, f1, by simp [renderScript, hl]⟩
      · have hne : ScriptToken.placeholder n f ≠ ScriptToken.placeholder n1 f1 := by
          intro hcontra
          injection hcontra with hn hf
          subst hn
          subst hf
          exact hl hmiss
        have hmem' : ScriptToken.placeholder n f ∈ rest := by
          rcases List.mem_cons.mp hmem with hhead | htail
          · exact absurd hhead hne
          · exact htail
        obtain ⟨n0, f0, herr⟩ := ih hmem'
        obtain ⟨v, hv⟩ := Option.ne_none_iff_exists'.mp hl
        exact ⟨n0, f0, by simp [renderScript, hv, herr]⟩

/-- C7: rendering a script that references a field not present on the
bindings fails with a `TemplateRenderError` and leaves the execution
status exactly as it was; in particular a script referencing the `calc`
(invocation) binding fails this way whenever that binding is absent,
whereas the standard binding set supplies all three names. -/
theorem render_missing_field_fails_without_advance
    (tokens : List ScriptToken) (b : Bindings) (n f : String)
    (p : Processing) (target : Step)
    (hmem : ScriptToken.placeholder n f ∈ tokens)
    (hmiss : lookupField b n f = none) :
    (∃ n0 f0, renderScript tokens b =
      Except.error (RenderError.templateRenderError n0 f0)) ∧
    (renderThenAdvance p target tokens b).1 = p ∧
    (renderThenAdvance p target tokens b).2.isSome = true ∧
    (∀ calc0 : BindingObject, b.lookup "calc" = none →
      ScriptToken.placeholder "calc" f ∈ tokens →
      lookupField b "calc" f = none ∧
      ((standardBindings [] [] calc0).lookup "calc").isSome = true) := by
  obtain ⟨n0, f0, herr⟩ := renderScript_error_of_missing tokens b n f hmem hmiss
  refine ⟨⟨n0, f0, herr⟩, ?_, ?_, ?_⟩
  · simp [renderThenAdvance, herr]
  · simp [renderThenAdvance, herr]
  · intro calc0 hcalc _
    refine ⟨?_, by simp [standardBindings]⟩
    simp [lookupField, hcalc]

/-- Concrete script token list referencing the invocation binding, used in
witnesses. -/
def tokensEx : List ScriptToken :=
  [ScriptToken.text "srun ", ScriptToken.placeholder "calc" "uuid"]

/-- Concrete bindings supplying `client` and `code` but not `calc`, used
in witnesses. -/
def bindingsNoCalcEx : Bindings :=
  [("client", [("work_dir", "/home/u")]), ("code", [("label", "gamma")])]

/-- Witness for C7: rendering the concrete script against bindings missing
the invocation fails and the status record in step `created` stays put. -/
theorem render_missing_field_fails_without_advance_witness :
    (∃ n0 f0, renderScript tokensEx bindingsNoCalcEx =
      Except.error (RenderError.templateRenderError n0 f0)) ∧
    (renderThenAdvance processingEx Step.submitting tokensEx bindingsNoCalcEx).1 =
      processingEx := by
  have h := render_missing_field_fails_without_advance tokensEx bindingsNoCalcEx
    "calc" "uuid" processingEx Step.submitting (by simp [tokensEx]) (by decide)
  exact ⟨h.1, h.2.1⟩
